import Mathlib

/-!
Verification model of `mbf-agent/src/patching.rs`: the integrity-checked patch
applier, the diff fetcher with retry, the downgrade orchestrator, the asset
bundle (OBB) backup/restore manager, the APK mutation pipeline, and modloader
detection.  The embedding follows the Rust source line by line; collaborators
whose source is not available (the zip container codec, the binary-XML codec,
`serde_json`, the bsdiff patch format, the network) are modelled from the
contracts stated in the design document and are marked as such in their doc
comments.  Effects are made explicit: the filesystem is an association list
from paths to byte contents, log macros become event lists, and network or
process outcomes become oracle parameters.
-/

namespace Patching

/-- Bytes of a file: a list of byte values (each `< 256` where it matters). -/
abbrev Bytes := List Nat

/-- A filesystem path, represented by its components (`std::path::Path`). -/
abbrev FPath := List String

/-- In-memory model of the filesystem: an association list from paths to file
contents.  Lookup takes the first matching entry. -/
abbrev FS := List (FPath × Bytes)

/-- Read a file's contents (`None` models an `Err` from `File::open`). -/
def fsRead : FS → FPath → Option Bytes
  | [], _ => none
  | (q, d) :: rest, p => if q = p then some d else fsRead rest p

/-- Drop every entry at the given path. -/
def fsErase : FS → FPath → FS
  | [], _ => []
  | (q, d) :: rest, p => if q = p then fsErase rest p else (q, d) :: fsErase rest p

/-- Create/truncate the file at `p` and write `d` (models
`OpenOptions::new().create(true).truncate(true)` followed by writing). -/
def fsWrite (fs : FS) (p : FPath) (d : Bytes) : FS := fsErase fs p ++ [(p, d)]

/-- `std::fs::remove_file` on a path that exists. -/
def fsRemove (fs : FS) (p : FPath) : FS := fsErase fs p

/-- One shift-xor round of the reflected CRC-32 with polynomial `0xEDB88320`. -/
def crc32Round (c : Nat) : Nat :=
  if c % 2 = 1 then (c / 2) ^^^ 0xEDB88320 else c / 2

/-- Fold one byte into a running CRC-32 state. -/
def crc32Byte (c b : Nat) : Nat :=
  (List.range 8).foldl (fun acc _ => crc32Round acc) (c ^^^ (b % 256))

/-- CRC-32/ISO-HDLC of a byte sequence (init `0xFFFFFFFF`, xor-out
`0xFFFFFFFF`): the checksum computed by `ZIP_CRC.checksum` in the source's
zip module (the `crc` crate's `CRC_32_ISO_HDLC`).  Note `crc32 [] = 0`. -/
def crc32 (bytes : Bytes) : Nat :=
  (bytes.foldl crc32Byte 0xFFFFFFFF) ^^^ 0xFFFFFFFF

/-- Modelled from the spec: `external_res::Diff` is declared outside the
available source.  Per the design document a `Diff` carries a stable diff
identifier (`diff_name`), the file name under which the patch bytes are stored
once downloaded (`file_name`), and the expected CRC32 of the pre-patch file
(`file_crc`) - exactly the three fields the patching code reads. -/
structure Diff where
  diff_name : String
  file_name : String
  file_crc : Nat
deriving DecidableEq

/-- Modelled from the spec: `external_res::VersionDiffs` - one patch for the
main package (`apk_diff`) plus an ordered set of patches for asset-bundle
files (`obb_diffs`). -/
structure VersionDiffs where
  apk_diff : Diff
  obb_diffs : List Diff
deriving DecidableEq

/-- `read_exact` semantics: fill exactly `buffer.length` bytes from the start
of the stream; on a too-short stream it errors leaving the buffer arbitrary
(we return it unchanged - the caller below discards the `Result` anyway). -/
def read_exact_into (source buffer : Bytes) : Bytes :=
  if buffer.length ≤ source.length then source.take buffer.length else buffer

/-- `read_file_vec` from the source.  Faithful to the code, bug included: it
opens the file (error if absent), builds `file_content` as
`Vec::with_capacity(len)` - a vector whose LENGTH is 0 - and then calls
`reader.read_exact(&mut file_content)`, which fills exactly
`file_content.len() = 0` bytes and whose `Result` is discarded.  The returned
vector is therefore always empty, regardless of the file's actual contents. -/
def read_file_vec (fs : FS) (path : FPath) : Option Bytes :=
  match fsRead fs path with
  | none => none
  | some contents =>
    let file_content : Bytes := []
    some (read_exact_into contents file_content)

/-- Magic header `"BSDIFF40"` of the bsdiff 4.x patch format. -/
def BSDIFF_MAGIC : Bytes := [66, 83, 68, 73, 70, 70, 52, 48]

/-- A parsed bsdiff patch (`qbsdiff::Bspatch`), keeping the raw bytes. -/
structure Bspatch where
  raw : Bytes
deriving DecidableEq

/-- Modelled from the spec: the patch-format collaborator's
`parse(bytes) -> Patch`, which fails when the payload is not a well-formed
patch.  A bsdiff 4.x patch begins with an 8-byte magic and a 24-byte length
header, so fewer than 32 bytes, or a wrong magic, is never well-formed; in
particular the empty byte string is not a valid patch. -/
def Bspatch.new (b : Bytes) : Option Bspatch :=
  if 32 ≤ b.length ∧ b.take 8 = BSDIFF_MAGIC then some ⟨b⟩ else none

/-- Modelled from the spec: the collaborator operation
`apply(Patch, source_bytes, output_sink)` is abstracted as a function from
patch bytes and source bytes to output bytes; the patching code treats it as
an opaque deterministic transformation. -/
structure DiffEnv where
  bspatch_apply : Bytes → Bytes → Bytes

/-- Errors of `apply_diff`, one constructor per distinct `anyhow` error site:
`diffMissing` is the "Diff could not be opened. Was it downloaded" context,
`diffInvalid` is "Diff file was invalid", `sourceMissing` an I/O failure
opening the source file, and `crcMismatch actual expected` is the integrity
error whose message names both checksums ("File CRC {} did not match expected
value of {}"). -/
inductive ApplyErr
  | diffMissing
  | diffInvalid
  | sourceMissing
  | crcMismatch (actual expected : Nat)
deriving DecidableEq

/-- The path `diffs_path.join(&diff.file_name)` from which `apply_diff` loads
the downloaded patch payload. -/
def diffPayloadPath (diffs_path : FPath) (diff : Diff) : FPath :=
  diffs_path ++ [diff.file_name]

/-- `apply_diff` from the source: load the diff payload via `read_file_vec`,
parse it, load the source file via `read_file_vec`, compare its CRC32 with
`diff.file_crc`, and only then create/truncate the destination and stream the
patch output into it. -/
def apply_diff (env : DiffEnv) (fs : FS) (from_path to_path : FPath)
    (diff : Diff) (diffs_path : FPath) : Except ApplyErr FS :=
  match read_file_vec fs (diffPayloadPath diffs_path diff) with
  | none => .error .diffMissing
  | some diff_content =>
    match Bspatch.new diff_content with
    | none => .error .diffInvalid
    | some patch =>
      match read_file_vec fs from_path with
      | none => .error .sourceMissing
      | some file_content =>
        let before_crc := crc32 file_content
        if before_crc ≠ diff.file_crc then
          .error (.crcMismatch before_crc diff.file_crc)
        else
          .ok (fsWrite fs to_path (env.bspatch_apply patch.raw file_content))

/-- The path `to_dir.as_ref().join(&diff.diff_name)` at which `download_diff`
creates/truncates its output file. -/
def downloadTargetPath (to_dir : FPath) (diff : Diff) : FPath :=
  to_dir ++ [diff.diff_name]

/-- `download_diff` from the source, restricted to a successful transfer: it
opens (create/truncate) the output file at `to_dir.join(&diff.diff_name)` and
streams the remote response into it.  The network response is the `remote`
parameter; progress callbacks are wall-clock logging only and are not
modelled. -/
def download_diff (fs : FS) (diff : Diff) (to_dir : FPath) (remote : Bytes) : FS :=
  fsWrite fs (downloadTargetPath to_dir diff) remote

/-- `DIFF_DOWNLOAD_ATTEMPTS` from the source. -/
def DIFF_DOWNLOAD_ATTEMPTS : Nat := 3

/-- Observable events of the retry loop: `attempt i` records the `i`-th call
of `download_diff`, `logFailure i` the `error!("Failed to download ...")` log
line emitted when attempt `i` failed and will be retried. -/
inductive RetryEv
  | attempt (i : Nat)
  | logFailure (i : Nat)
deriving DecidableEq

/-- The `loop` body of `download_diff_retry`.  `outcome i` is the result of
the `i`-th call to `download_diff` (an oracle for the network); `att` is the
`attempt` counter starting at 1; `fuel` bounds the remaining iterations purely
to make the recursion structural - from the entry point `att = 1`,
`fuel = DIFF_DOWNLOAD_ATTEMPTS - 1` and the `fuel = 0` branch is never
reached, because the loop breaks at `att = DIFF_DOWNLOAD_ATTEMPTS`. -/
def download_diff_retry_go {E : Type} (outcome : Nat → Except E Unit) :
    Nat → Nat → Except E Unit × List RetryEv
  | att, fuel =>
    match outcome att with
    | .ok _ => (.ok (), [.attempt att])
    | .error e =>
      if att = DIFF_DOWNLOAD_ATTEMPTS then (.error e, [.attempt att])
      else
        match fuel with
        | 0 => (.error e, [.attempt att])
        | fuel' + 1 =>
          let r := download_diff_retry_go outcome (att + 1) fuel'
          (r.1, .attempt att :: .logFailure att :: r.2)

/-- `download_diff_retry` from the source: `attempt` starts at 1; a success
returns immediately; a failure at `attempt == DIFF_DOWNLOAD_ATTEMPTS` breaks
out of the loop with that error; any earlier failure is logged and the loop
continues.  Returns the result together with the trace of attempts made and
retry log lines emitted. -/
def download_diff_retry {E : Type} (outcome : Nat → Except E Unit) :
    Except E Unit × List RetryEv :=
  download_diff_retry_go outcome 1 (DIFF_DOWNLOAD_ATTEMPTS - 1)

/-- The filesystem after running a sequence of fetches in order, each fetch
being an effectful oracle returning its result and the updated filesystem. -/
def foldFetch {E : Type} (fetch : FS → Diff → Except E Unit × FS) (fs : FS)
    (ds : List Diff) : FS :=
  ds.foldl (fun f d => (fetch f d).2) fs

/-- The `for diff in version_diffs.obb_diffs.iter()` loop of `download_diffs`:
run the fetch (an oracle standing for `download_diff_retry`, which may write
to the filesystem) for each diff in order, propagating the first failure with
`?`.  Returns the result, the final filesystem, and the trace of diffs for
which a fetch was started. -/
def download_diffs_go {E : Type} (fetch : FS → Diff → Except E Unit × FS) :
    List Diff → FS → Except E Unit × FS × List Diff
  | [], fs => (.ok (), fs, [])
  | d :: rest, fs =>
    let r := fetch fs d
    match r.1 with
    | .error e => (.error e, r.2, [d])
    | .ok _ =>
      let rr := download_diffs_go fetch rest r.2
      (rr.1, rr.2.1, d :: rr.2.2)

/-- `download_diffs` from the source: fetch (with retry) every OBB diff in the
set's order, then fetch the APK diff; each fetch failure propagates
immediately via `?`, and nothing already written to disk is cleaned up. -/
def download_diffs {E : Type} (fetch : FS → Diff → Except E Unit × FS)
    (vd : VersionDiffs) (fs : FS) : Except E Unit × FS × List Diff :=
  let r := download_diffs_go fetch vd.obb_diffs fs
  match r.1 with
  | .error e => (.error e, r.2.1, r.2.2)
  | .ok _ =>
    let ra := fetch r.2.1 vd.apk_diff
    match ra.1 with
    | .error e => (.error e, ra.2, r.2.2 ++ [vd.apk_diff])
    | .ok _ => (.ok (), ra.2, r.2.2 ++ [vd.apk_diff])

/-- Split a character list at every `.`, keeping the (possibly empty) pieces. -/
def splitDot : List Char → List (List Char)
  | [] => [[]]
  | c :: cs =>
    let r := splitDot cs
    if c = '.' then [] :: r
    else
      match r with
      | [] => [[c]]
      | s :: rest => (c :: s) :: rest

/-- Extension of a file name, following `std::path::Path::extension`: the part
after the last `.` of the final component; `None` when there is no `.` or when
the only `.` is a leading one (a dot-file has no extension). -/
def extensionOf (name : String) : Option String :=
  match splitDot name.toList with
  | [] => none
  | [_] => none
  | first :: rest =>
    if first = [] ∧ rest.length = 1 then none
    else (rest.getLast?).map String.mk

/-- File name of a path: its last component (`Path::file_name().unwrap()`). -/
def pathFileName (p : FPath) : String := p.getLastD ""

/-- Extension of a path's file name. -/
def pathExtension (p : FPath) : Option String := extensionOf (pathFileName p)

/-- The snapshot of paths produced by `std::fs::read_dir(dir)`: the paths of
the filesystem entries lying directly in `dir`, in filesystem order. -/
def dirEntries (fs : FS) (dir : FPath) : List FPath :=
  (fs.filter (fun e => decide (e.1.dropLast = dir ∧ e.1 ≠ []))).map (·.1)

/-- Filesystem errors surfaced by the backup/restore code. -/
inductive FsErr
  | notFound (p : FPath)
deriving DecidableEq

/-- The loop of `save_obbs` over the directory listing: for each entry whose
extension is exactly `"obb"`, copy it to the backup directory under its file
name, delete the original (copy-then-delete, never rename), and record the
ORIGINAL path; entries with any other (or no) extension are skipped. -/
def save_obbs_go (obb_backup_path : FPath) :
    List FPath → FS → Except FsErr (FS × List FPath)
  | [], fs => .ok (fs, [])
  | p :: rest, fs =>
    if pathExtension p = some "obb" then
      match fsRead fs p with
      | none => .error (.notFound p)
      | some content =>
        let fs1 := fsWrite fs (obb_backup_path ++ [pathFileName p]) content
        let fs2 := fsRemove fs1 p
        match save_obbs_go obb_backup_path rest fs2 with
        | .error e => .error e
        | .ok (fs3, paths) => .ok (fs3, p :: paths)
    else save_obbs_go obb_backup_path rest fs

/-- `save_obbs` from the source. -/
def save_obbs (fs : FS) (obb_dir obb_backup_path : FPath) :
    Except FsErr (FS × List FPath) :=
  save_obbs_go obb_backup_path (dirEntries fs obb_dir) fs

/-- Log lines emitted by `restore_obb_files`: the only log call in its body is
`info!("Restoring {:?}", backup_path)` before each copy. -/
inductive RestoreLog
  | restoring (p : FPath)
deriving DecidableEq

/-- Errors of `restore_obb_files`: `copyFailed p` is the `?`-propagated error
of `std::fs::copy` when the file at `p` cannot be read. -/
inductive RestoreErr
  | copyFailed (p : FPath)
deriving DecidableEq

/-- The loop of `restore_obb_files`.  `rmFail` is a fault oracle for
`std::fs::remove_file` (true = the deletion fails, e.g. a permission error);
the call's `Result` is DISCARDED by the source (`std::fs::remove_file(path);`
with no `?` and no logging), so a failed deletion leaves the backup file in
place and produces no log line and no error. -/
def restore_obb_files_go (rmFail : FPath → Bool) (restore_dir : FPath) :
    List FPath → FS → Except RestoreErr FS × List RestoreLog
  | [], fs => (.ok fs, [])
  | p :: rest, fs =>
    match fsRead fs p with
    | none => (.error (.copyFailed p), [.restoring p])
    | some content =>
      let fs1 := fsWrite fs (restore_dir ++ [pathFileName p]) content
      let fs2 := if rmFail p then fs1 else fsRemove fs1 p
      let r := restore_obb_files_go rmFail restore_dir rest fs2
      (r.1, .restoring p :: r.2)

/-- `restore_obb_files` from the source (the leading
`std::fs::create_dir_all(restore_dir)` is a no-op in this directory-less
filesystem model). -/
def restore_obb_files (rmFail : FPath → Bool) (fs : FS) (restore_dir : FPath)
    (obb_backups : List FPath) : Except RestoreErr FS × List RestoreLog :=
  restore_obb_files_go rmFail restore_dir obb_backups fs

/-- Per-entry compression methods of the zip collaborator that the source
uses. -/
inductive FileCompression
  | store
  | deflate
deriving DecidableEq

/-- One entry of the zip container: name, data, compression method. -/
structure ZipEntry where
  name : String
  data : Bytes
  compression : FileCompression
deriving DecidableEq

/-- A v2 signature as recorded by `save_and_sign_v2`: the certificate used and
the snapshot of entries the signature covers. -/
structure SigV2 where
  cert : Bytes
  signedEntries : List ZipEntry
deriving DecidableEq

/-- Modelled from the spec: the zip container collaborator (`crate::zip`,
whose source is not available).  Entries are addressed by path strings;
`write_entry` overwrites an existing entry of the same name;
`finalize_and_sign_v2` records a whole-container signature over the current
entries, as the final operation. -/
structure ZipFile where
  entries : List ZipEntry
  signature : Option SigV2
deriving DecidableEq

/-- First entry with the given name. -/
def zipFind : List ZipEntry → String → Option ZipEntry
  | [], _ => none
  | e :: rest, n => if e.name = n then some e else zipFind rest n

/-- Remove every entry with the given name. -/
def zipErase : List ZipEntry → String → List ZipEntry
  | [], _ => []
  | e :: rest, n => if e.name = n then zipErase rest n else e :: zipErase rest n

/-- Entry lookup on a container. -/
def ZipFile.find (z : ZipFile) (n : String) : Option ZipEntry :=
  zipFind z.entries n

/-- `contains_file` of the zip collaborator. -/
def ZipFile.contains_file (z : ZipFile) (n : String) : Bool :=
  (z.find n).isSome

/-- `read_file` of the zip collaborator (always succeeds on an entry that is
present, since entries are in memory). -/
def ZipFile.read_file (z : ZipFile) (n : String) : Option Bytes :=
  (z.find n).map (·.data)

/-- `delete_file` of the zip collaborator. -/
def ZipFile.delete_file (z : ZipFile) (n : String) : ZipFile :=
  { z with entries := zipErase z.entries n }

/-- `write_file` of the zip collaborator: replaces any entry of the same name. -/
def ZipFile.write_file (z : ZipFile) (n : String) (d : Bytes)
    (c : FileCompression) : ZipFile :=
  { z with entries := zipErase z.entries n ++ [⟨n, d, c⟩] }

/-- `save_and_sign_v2` of the zip collaborator: records a v2 signature with
the given certificate over the container's entries as they are at signing
time (the private key produces the signature and adds no observable state). -/
def ZipFile.save_and_sign_v2 (z : ZipFile) (cert _priv_key : Bytes) : ZipFile :=
  { z with signature := some ⟨cert, z.entries⟩ }

/-- Modelled from the spec: `crate::ModTag`, the provenance record - patcher
name, optional patcher version, modloader name, optional modloader version. -/
structure ModTag where
  patcher_name : String
  patcher_version : Option String
  modloader_name : String
  modloader_version : Option String
deriving DecidableEq

/-- Modelled from the spec: `requests::ModLoader`, the variant set reported by
modloader detection. -/
inductive ModLoader
  | QuestLoader
  | Scotland2
  | Unknown
deriving DecidableEq

/-- `MOD_TAG_PATH` from the source. -/
def MOD_TAG_PATH : String := "modded.json"

/-- `LIB_MAIN_PATH` from the source. -/
def LIB_MAIN_PATH : String := "lib/arm64-v8a/libmain.so"

/-- `LIB_UNITY_PATH` from the source. -/
def LIB_UNITY_PATH : String := "lib/arm64-v8a/libunity.so"

/-- ASCII lower-casing of one character (`u8::to_ascii_lowercase`). -/
def asciiLower (c : Char) : Char :=
  if 65 ≤ c.toNat ∧ c.toNat ≤ 90 then Char.ofNat (c.toNat + 32) else c

/-- `str::eq_ignore_ascii_case`. -/
def eqIgnoreAsciiCase (a b : String) : Bool :=
  decide (a.toList.map asciiLower = b.toList.map asciiLower)

/-- `str::contains(pattern)` for a literal pattern: substring containment. -/
def containsSubstr (s pat : String) : Bool :=
  s.toList.tails.any (fun t => pat.toList.isPrefixOf t)

/-- JSON escaping of one character inside a string literal (only `"` and `\`
need escaping for the strings at hand). -/
def jsonEscapeChar (c : Char) : List Char :=
  if c = '"' ∨ c = '\\' then ['\\', c] else [c]

/-- A JSON string literal. -/
def jsonString (s : String) : String :=
  String.mk ('"' :: (s.toList.map jsonEscapeChar).flatten ++ ['"'])

/-- A JSON value for an optional string: `null` for `None`. -/
def jsonOfOption : Option String → String
  | some s => jsonString s
  | none => "null"

/-- Modelled from the spec: `serde_json::to_vec_pretty` on a `ModTag`
(collaborator) - a pretty-printed object with the four fields in declaration
order, two-space indentation, optional fields serialized as `null`. -/
def modTagJson (t : ModTag) : String :=
  "\x7b\n  \"patcher_name\": " ++ jsonString t.patcher_name ++
  ",\n  \"patcher_version\": " ++ jsonOfOption t.patcher_version ++
  ",\n  \"modloader_name\": " ++ jsonString t.modloader_name ++
  ",\n  \"modloader_version\": " ++ jsonOfOption t.modloader_version ++
  "\n\x7d"

/-- UTF-8 bytes of an ASCII string. -/
def strToBytes (s : String) : Bytes := s.toList.map Char.toNat

/-- Serialized bytes of a `ModTag` as written into the container. -/
def modTagEncode (t : ModTag) : Bytes := strToBytes (modTagJson t)

/-- Skip JSON whitespace. -/
def skipWs : List Char → List Char
  | [] => []
  | c :: cs =>
    if c == ' ' || c == '\n' || c == '\t' || c == '\r' then skipWs cs
    else c :: cs

/-- Parse the body of a JSON string literal after its opening quote, handling
the `\"` and `\\` escapes; fails on an unterminated literal or an unsupported
escape. -/
def parseStringBody : List Char → Option (List Char × List Char)
  | [] => none
  | '\\' :: c :: cs =>
    if c == '"' || c == '\\' then
      match parseStringBody cs with
      | some (s, r) => some (c :: s, r)
      | none => none
    else none
  | c :: cs =>
    if c == '"' then some ([], cs)
    else
      match parseStringBody cs with
      | some (s, r) => some (c :: s, r)
      | none => none

/-- Parse a JSON value of the shapes a `ModTag` field can take: a string
literal or `null`. -/
def parseJsonValue (cs : List Char) : Option (Option String × List Char) :=
  match skipWs cs with
  | '"' :: rest =>
    match parseStringBody rest with
    | some (s, r) => some (some (String.mk s), r)
    | none => none
  | 'n' :: 'u' :: 'l' :: 'l' :: rest => some (none, rest)
  | _ => none

/-- Parse one `"key": value` member. -/
def parseJsonMember (cs : List Char) :
    Option ((String × Option String) × List Char) :=
  match skipWs cs with
  | '"' :: rest =>
    match parseStringBody rest with
    | some (k, r) =>
      match skipWs r with
      | ':' :: r2 =>
        match parseJsonValue r2 with
        | some (v, r3) => some ((String.mk k, v), r3)
        | none => none
      | _ => none
    | none => none
  | _ => none

/-- Parse a comma-separated member list up to and including the closing
brace.  `fuel` only bounds the recursion; callers pass the input length. -/
def parseJsonMembers : Nat → List Char → Option (List (String × Option String) × List Char)
  | 0, _ => none
  | fuel + 1, cs =>
    match parseJsonMember cs with
    | none => none
    | some (kv, r) =>
      match skipWs r with
      | ',' :: r2 =>
        match parseJsonMembers fuel r2 with
        | some (kvs, r3) => some (kv :: kvs, r3)
        | none => none
      | c :: r2 => if c == '\x7d' then some ([kv], r2) else none
      | [] => none

/-- Parse a flat JSON object of string/null fields. -/
def parseJsonObject (cs : List Char) :
    Option (List (String × Option String) × List Char) :=
  match skipWs cs with
  | c :: rest =>
    if c == '\x7b' then
      match skipWs rest with
      | c2 :: r2 =>
        if c2 == '\x7d' then some ([], r2)
        else parseJsonMembers (rest.length + 1) rest
      | [] => none
    else none
  | [] => none

/-- First value of the field named `k`, if the field is present. -/
def lookupField (kvs : List (String × Option String)) (k : String) :
    Option (Option String) :=
  match kvs.find? (fun kv => kv.1 == k) with
  | some kv => some kv.2
  | none => none

/-- A required `String` field: present and non-null. -/
def requiredStr (kvs : List (String × Option String)) (k : String) :
    Option String :=
  match lookupField kvs k with
  | some (some s) => some s
  | _ => none

/-- An `Option<String>` field: `None` when absent or null. -/
def optionalStr (kvs : List (String × Option String)) (k : String) :
    Option String :=
  match lookupField kvs k with
  | some (some s) => some s
  | _ => none

/-- Decode bytes as ASCII characters (the fragment of UTF-8 the model needs);
fails on any byte outside the ASCII range. -/
def bytesToChars (b : Bytes) : Option (List Char) :=
  if b.all (fun n => n < 128) then some (b.map Char.ofNat) else none

/-- Modelled from the spec: `serde_json::from_slice::<ModTag>` (collaborator):
parse a JSON object and build a `ModTag` whose `patcher_name` and
`modloader_name` fields are required strings and whose version fields are
optional; any parse failure yields `none` (serde's `Err`). -/
def modTagDecode (b : Bytes) : Option ModTag :=
  match bytesToChars b with
  | none => none
  | some cs =>
    match parseJsonObject cs with
    | none => none
    | some (kvs, rest) =>
      if (skipWs rest).isEmpty then
        match requiredStr kvs "patcher_name", requiredStr kvs "modloader_name" with
        | some pn, some mn =>
          some ⟨pn, optionalStr kvs "patcher_version", mn,
                optionalStr kvs "modloader_version"⟩
        | _, _ => none
      else none

/-- Modelled from the spec: the collaborators of the APK mutation pipeline
whose source is not available, bundled as an environment: the bundled debug
certificate bytes (`DEBUG_CERT_PEM`, an `include_bytes!` asset), the bundled
native loader bytes (`LIB_MAIN`), the composite manifest transformation
(AXML decode, apply the declarative manifest mod, re-encode - `none` models
any failure of `AxmlReader::new`, `ResourceIds::load`, `apply_mod` or
`finish`), and `signing::load_cert_and_priv_key`, returning the
`(private key, certificate)` pair parsed from the PEM bytes. -/
structure ApkEnv where
  debug_cert_pem : Bytes
  lib_main : Bytes
  manifest_transform : Bytes → Option Bytes
  load_cert_and_priv_key : Bytes → Bytes × Bytes

/-- Errors of the APK mutation pipeline. -/
inductive ApkErr
  | noManifest
  | manifestTransformFailed
deriving DecidableEq

/-- `patch_manifest` from the source: read `AndroidManifest.xml` (error "APK
had no manifest" if absent), run it through the AXML transformation, delete
the old entry and write the transformed bytes back with Deflate compression. -/
def patch_manifest (env : ApkEnv) (zip : ZipFile) : Except ApkErr ZipFile :=
  match zip.read_file "AndroidManifest.xml" with
  | none => .error .noManifest
  | some contents =>
    match env.manifest_transform contents with
    | none => .error .manifestTransformFailed
    | some newManifest =>
      let zip := zip.delete_file "AndroidManifest.xml"
      .ok (zip.write_file "AndroidManifest.xml" newManifest .deflate)

/-- The `ModTag` literal written by `patch_apk_in_place`. -/
def mbfTag : ModTag :=
  ⟨"ModsBeforeFriday", some "0.1.0", "Scotland2", none⟩

/-- `add_modded_tag` from the source: serialize the tag and write it at
`MOD_TAG_PATH` with Deflate compression. -/
def add_modded_tag (z : ZipFile) (tag : ModTag) : ZipFile :=
  z.write_file MOD_TAG_PATH (modTagEncode tag) .deflate

/-- `patch_apk_in_place` from the source, on an already-opened container:
patch the manifest, load the debug certificate and key, delete then write the
native loader at `LIB_MAIN_PATH`, stamp the provenance tag, optionally write
the unstripped `libunity.so` (a missing one only logs a warning), and finally
`save_and_sign_v2` with the debug certificate - the last operation on the
container. -/
def patch_apk_in_place (env : ApkEnv) (zip : ZipFile)
    (libunity : Option Bytes) : Except ApkErr ZipFile :=
  match patch_manifest env zip with
  | .error e => .error e
  | .ok zip1 =>
    let pc := env.load_cert_and_priv_key env.debug_cert_pem
    let zip2 := zip1.delete_file LIB_MAIN_PATH
    let zip3 := zip2.write_file LIB_MAIN_PATH env.lib_main .deflate
    let zip4 := add_modded_tag zip3 mbfTag
    let zip5 :=
      match libunity with
      | some unity => zip4.write_file LIB_UNITY_PATH unity .deflate
      | none => zip4
    .ok (zip5.save_and_sign_v2 pc.2 pc.1)

/-- Error of `get_modloader_installed`'s `read_file` call (context "Failed to
read mod tag"); unreachable in this in-memory model. -/
inductive MlErr
  | readFailed
deriving DecidableEq

/-- Log lines of `get_modloader_installed`: the `warn!("Mod tag was invalid
JSON ...")` line. -/
inductive MlLog
  | warnInvalidTag
deriving DecidableEq

/-- `get_modloader_installed` from the source: if the tag entry exists, read
and deserialize it - invalid JSON logs a warning and yields `Unknown`; a valid
tag is matched case-insensitively against "QuestLoader" then "Scotland2",
anything else being `Unknown`.  Without a tag entry, any entry name containing
"modded" yields `Unknown`; otherwise the loader is reported as not installed
(`none`). -/
def get_modloader_installed (apk : ZipFile) :
    Except MlErr (Option ModLoader) × List MlLog :=
  if apk.contains_file MOD_TAG_PATH then
    match apk.read_file MOD_TAG_PATH with
    | none => (.error .readFailed, [])
    | some tag_data =>
      match modTagDecode tag_data with
      | none => (.ok (some .Unknown), [.warnInvalidTag])
      | some mod_tag =>
        (.ok (some
          (if eqIgnoreAsciiCase mod_tag.modloader_name "QuestLoader" then
            ModLoader.QuestLoader
          else if eqIgnoreAsciiCase mod_tag.modloader_name "Scotland2" then
            ModLoader.Scotland2
          else ModLoader.Unknown)), [])
  else if apk.entries.any (fun e => containsSubstr e.name "modded") then
    (.ok (some .Unknown), [])
  else
    (.ok none, [])

/-- A syntactically well-formed bsdiff payload used as a concrete input. -/
def samplePatchBytes : Bytes := BSDIFF_MAGIC ++ List.replicate 24 0

/-- Concrete source-file bytes for the patch-applier scenarios. -/
def sampleSource : Bytes := [1]

/-- A diff whose expected CRC matches `sampleSource` and whose two names
agree, isolating the `read_file_vec` defect from the path-mismatch defect. -/
def sampleDiffC1 : Diff := ⟨"d1", "d1", crc32 sampleSource⟩

/-- Filesystem holding the downloaded payload and the source file. -/
def sampleFsC1 : FS :=
  [(["diffs", "d1"], samplePatchBytes), (["app.apk"], sampleSource)]

/-- A diff whose expected CRC does not match `sampleSource`. -/
def sampleDiffC2 : Diff := ⟨"d2", "d2", 0⟩

/-- Filesystem for the checksum-mismatch scenario. -/
def sampleFsC2 : FS :=
  [(["diffs", "d2"], samplePatchBytes), (["app.apk"], sampleSource)]

/-- A diff whose stable identifier and storage file name differ. -/
def sampleDiffC6 : Diff := ⟨"bsdiff-main", "main.apk", 0⟩

/-- Install directory holding one asset bundle and one extensionless DLC. -/
def sampleObbFs : FS :=
  [(["obb", "main.obb"], [1, 2, 3]), (["obb", "dlc"], [9])]

/-- The filesystem after `save_obbs sampleObbFs ["obb"] ["bk"]`: the bundle
relocated to the backup directory, the DLC untouched. -/
def sampleObbFsSaved : FS :=
  [(["obb", "dlc"], [9]), (["bk", "main.obb"], [1, 2, 3])]

/-- Concrete retry outcome: failures on attempts 1 and 2, success on 3. -/
def retryOutcomeW : Nat → Except String Unit :=
  fun i => if i = 3 then .ok () else .error "connection reset"

/-- Concrete always-succeeding fetch oracle that stores each payload under the
diff's identifier. -/
def fetchW : FS → Diff → Except String Unit × FS :=
  fun fs d => (.ok (), fsWrite fs ["dl", d.diff_name] [7])

/-- Concrete `VersionDiffs` with two asset-bundle diffs. -/
def vdW : VersionDiffs :=
  ⟨⟨"apk-diff", "apk-file", 0⟩, [⟨"o1", "o1f", 1⟩, ⟨"o2", "o2f", 2⟩]⟩

/-- Concrete valid tag with a case-varied QuestLoader name. -/
def tagQuestW : ModTag := ⟨"p", none, "questLOADER", none⟩

/-- Concrete container holding the valid QuestLoader tag. -/
def apkQuestW : ZipFile :=
  ⟨[⟨MOD_TAG_PATH, modTagEncode tagQuestW, .deflate⟩], none⟩

/-- Concrete container whose tag entry holds malformed bytes. -/
def apkBadTagW : ZipFile := ⟨[⟨MOD_TAG_PATH, [0], .deflate⟩], none⟩

/-- Concrete pipeline environment: identity manifest transformation, PEM
loader returning the PEM bytes as certificate. -/
def apkEnvW : ApkEnv := ⟨[1], [2], fun b => some b, fun pem => (pem ++ [0], pem)⟩

/-- Concrete well-formed input container: just a manifest. -/
def zipW : ZipFile := ⟨[⟨"AndroidManifest.xml", [0], .store⟩], none⟩

/-- The container produced by the pipeline on the concrete inputs. -/
def apkOutW : ZipFile :=
  ((patch_apk_in_place apkEnvW zipW none).toOption).getD ⟨[], none⟩

/-- Concrete backup directory contents for the restore scenarios. -/
def restoreFsW : FS := [(["bk", "a.obb"], [5])]

/-! Helper lemmas about the filesystem and container models. -/

theorem fsRead_append (a b : FS) (q : FPath) :
    fsRead (a ++ b) q =
      (match fsRead a q with | some d => some d | none => fsRead b q) := by
  induction a with
  | nil => simp [fsRead]
  | cons hd rest ih =>
    obtain ⟨r, d⟩ := hd
    by_cases h : r = q
    · simp [fsRead, h]
    · simp [fsRead, h, ih]

theorem fsRead_erase (fs : FS) (p q : FPath) :
    fsRead (fsErase fs p) q = if q = p then none else fsRead fs q := by
  induction fs with
  | nil => by_cases hqp : q = p <;> simp [fsErase, fsRead, hqp]
  | cons hd rest ih =>
    obtain ⟨r, d⟩ := hd
    by_cases hr : r = p
    · rw [fsErase, if_pos hr, ih]
      by_cases hqp : q = p
      · rw [if_pos hqp, if_pos hqp]
      · rw [if_neg hqp, if_neg hqp, fsRead]
        have hrq : ¬ r = q := fun hc => hqp (hc.symm.trans hr)
        rw [if_neg hrq]
    · rw [fsErase, if_neg hr, fsRead]
      by_cases hq : r = q
      · have hqp : ¬ q = p := fun hc => hr (hq.trans hc)
        rw [if_pos hq, if_neg hqp, fsRead, if_pos hq]
      · rw [if_neg hq, ih]
        by_cases hqp : q = p
        · rw [if_pos hqp, if_pos hqp]
        · rw [if_neg hqp, if_neg hqp, fsRead, if_neg hq]

theorem fsRead_erase_ne (fs : FS) (p q : FPath) (h : q ≠ p) :
    fsRead (fsErase fs p) q = fsRead fs q := by
  rw [fsRead_erase, if_neg h]

theorem fsRead_write_ne (fs : FS) (t : FPath) (d : Bytes) (q : FPath)
    (h : q ≠ t) : fsRead (fsWrite fs t d) q = fsRead fs q := by
  rw [fsWrite, fsRead_append, fsRead_erase, if_neg h]
  have htq : ¬ t = q := fun hc => h hc.symm
  cases hfs : fsRead fs q with
  | none => simp [hfs, fsRead, htq]
  | some c => simp [hfs]

theorem zipFind_erase (l : List ZipEntry) (n m : String) :
    zipFind (zipErase l n) m = if m = n then none else zipFind l m := by
  induction l with
  | nil => by_cases hm : m = n <;> simp [zipErase, zipFind, hm]
  | cons e rest ih =>
    by_cases he : e.name = n
    · rw [zipErase, if_pos he, ih]
      by_cases hm : m = n
      · rw [if_pos hm, if_pos hm]
      · rw [if_neg hm, if_neg hm, zipFind]
        have hem : ¬ e.name = m := fun hc => hm (hc.symm.trans he)
        rw [if_neg hem]
    · rw [zipErase, if_neg he, zipFind]
      by_cases hem : e.name = m
      · have hm : ¬ m = n := fun hc => he (hem.trans hc)
        rw [if_pos hem, if_neg hm, zipFind, if_pos hem]
      · rw [if_neg hem, ih]
        by_cases hm : m = n
        · rw [if_pos hm, if_pos hm]
        · rw [if_neg hm, if_neg hm, zipFind, if_neg hem]

theorem zipFind_append (a b : List ZipEntry) (n : String) :
    zipFind (a ++ b) n =
      (match zipFind a n with | some e => some e | none => zipFind b n) := by
  induction a with
  | nil => simp [zipFind]
  | cons e rest ih =>
    by_cases h : e.name = n
    · simp [zipFind, h]
    · simp [zipFind, h, ih]

theorem find_write_file (z : ZipFile) (n : String) (d : Bytes)
    (c : FileCompression) (m : String) :
    (z.write_file n d c).find m =
      if m = n then some ⟨n, d, c⟩ else z.find m := by
  rw [ZipFile.find, ZipFile.write_file]
  rw [zipFind_append, zipFind_erase]
  by_cases h : m = n
  · simp [h, zipFind]
  · have hnm : ¬ n = m := fun hc => h hc.symm
    cases hz : zipFind z.entries m with
    | none => simp [h, hz, zipFind, hnm, ZipFile.find]
    | some e => simp [h, hz, ZipFile.find]

theorem find_delete_file (z : ZipFile) (n m : String) :
    (z.delete_file n).find m = if m = n then none else z.find m := by
  rw [ZipFile.find, ZipFile.delete_file]
  exact zipFind_erase z.entries n m

theorem find_save_and_sign (z : ZipFile) (c p : Bytes) (m : String) :
    (z.save_and_sign_v2 c p).find m = z.find m := rfl

theorem read_file_some_contains (z : ZipFile) (n : String) (b : Bytes)
    (h : z.read_file n = some b) : z.contains_file n = true := by
  rw [ZipFile.contains_file]
  rw [ZipFile.read_file] at h
  cases hf : z.find n with
  | none => rw [hf] at h; cases h
  | some e => simp

theorem read_file_none_contains (z : ZipFile) (n : String)
    (h : z.read_file n = none) : z.contains_file n = false := by
  rw [ZipFile.contains_file]
  rw [ZipFile.read_file] at h
  cases hf : z.find n with
  | none => simp [hf]
  | some e => rw [hf] at h; cases h

/-! Claim theorems. -/

/-- C1: the claim states that `apply_diff` (via `read_file_vec`) loads the
diff payload and full source file into memory, checks the source's actual
on-disk CRC32 against `diff.file_crc`, and succeeds on a matching source with
a valid payload.  The code violates this: `read_file_vec` builds its buffer
with `Vec::with_capacity` (length 0) and calls `read_exact` - whose `Result`
it discards - so it always returns an EMPTY vector.  On a filesystem holding a
well-formed payload and a source whose CRC equals `file_crc`, the payload is
read back as `[]`, `Bspatch::new` rejects it, and `apply_diff` fails with the
invalid-diff error instead of succeeding. -/
theorem apply_diff_code_bug : ∀ env : DiffEnv,
    crc32 sampleSource = sampleDiffC1.file_crc
    ∧ fsRead sampleFsC1 (diffPayloadPath ["diffs"] sampleDiffC1) = some samplePatchBytes
    ∧ samplePatchBytes ≠ []
    ∧ (Bspatch.new samplePatchBytes).isSome = true
    ∧ read_file_vec sampleFsC1 (diffPayloadPath ["diffs"] sampleDiffC1) = some []
    ∧ read_file_vec sampleFsC1 ["app.apk"] = some []
    ∧ apply_diff env sampleFsC1 ["app.apk"] ["out.apk"] sampleDiffC1 ["diffs"]
        = .error .diffInvalid :=
  fun _ => ⟨rfl, rfl, by decide, by decide, rfl, rfl, rfl⟩

/-- C2: the claim states that on a CRC mismatch `apply_diff` returns the
integrity error naming both checksums, before touching the destination.  In a
genuine mismatch scenario (source `[1]`, expected CRC 0, well-formed payload
on disk) the code instead fails with the invalid-diff error: because of the
`read_file_vec` defect the payload is read back empty and rejected, so the
checksum comparison - which would itself compare the CRC of the empty buffer,
not of the file - is never reached. -/
theorem apply_diff_crc_mismatch_code_bug : ∀ env : DiffEnv,
    crc32 sampleSource ≠ sampleDiffC2.file_crc
    ∧ fsRead sampleFsC2 (diffPayloadPath ["diffs"] sampleDiffC2) = some samplePatchBytes
    ∧ (Bspatch.new samplePatchBytes).isSome = true
    ∧ apply_diff env sampleFsC2 ["app.apk"] ["out.apk"] sampleDiffC2 ["diffs"]
        = .error .diffInvalid
    ∧ (∀ a b : Nat, ApplyErr.diffInvalid ≠ ApplyErr.crcMismatch a b) :=
  fun _ => ⟨by decide, rfl, by decide, rfl, fun _ _ h => ApplyErr.noConfusion h⟩

/-- C6: the claim states that `download_diff` stores the payload at the same
path from which `apply_diff` later loads it.  The code stores at
`to_dir.join(diff.diff_name)` but loads from `diffs_path.join(diff.file_name)`;
for a `Diff` whose identifier and file name differ, a successful download
followed by `apply_diff` fails with the missing-payload error even though the
payload is on disk under the identifier. -/
theorem download_diff_apply_diff_path_mismatch : ∀ env : DiffEnv,
    downloadTargetPath ["diffs"] sampleDiffC6 ≠ diffPayloadPath ["diffs"] sampleDiffC6
    ∧ fsRead (download_diff [] sampleDiffC6 ["diffs"] samplePatchBytes)
        (downloadTargetPath ["diffs"] sampleDiffC6) = some samplePatchBytes
    ∧ fsRead (download_diff [] sampleDiffC6 ["diffs"] samplePatchBytes)
        (diffPayloadPath ["diffs"] sampleDiffC6) = none
    ∧ apply_diff env (download_diff [] sampleDiffC6 ["diffs"] samplePatchBytes)
        ["app.apk"] ["out.apk"] sampleDiffC6 ["diffs"] = .error .diffMissing :=
  fun _ => ⟨by decide, rfl, rfl, rfl⟩

/-- C7: the claim states that backup then restore is a round trip.  The
backup half behaves as claimed: `save_obbs` relocates exactly the `.obb`
entries by copy-then-delete, leaves other entries untouched, and returns the
ORIGINAL paths.  But `restore_obb_files` then copies FROM those recorded
original paths - which `save_obbs` has just deleted - rather than from the
backup copies, so the restore fails with a copy error and the file is never
recreated. -/
theorem save_restore_round_trip_broken :
    save_obbs sampleObbFs ["obb"] ["bk"]
      = .ok (sampleObbFsSaved, [["obb", "main.obb"]])
    ∧ fsRead sampleObbFsSaved ["bk", "main.obb"] = some [1, 2, 3]
    ∧ fsRead sampleObbFsSaved ["obb", "main.obb"] = none
    ∧ fsRead sampleObbFsSaved ["obb", "dlc"] = some [9]
    ∧ restore_obb_files (fun _ => false) sampleObbFsSaved ["obb"]
        [["obb", "main.obb"]]
      = (.error (.copyFailed ["obb", "main.obb"]),
         [.restoring ["obb", "main.obb"]]) :=
  ⟨rfl, rfl, rfl, rfl, rfl⟩

/-- C9 counterexample: the claim states that a failed deletion of a backup
copy is logged.  With a fault oracle making the deletion of `bk/a.obb` fail
after its successful copy-back, the run still returns success and the backup
file is still on disk (the leak), but the COMPLETE log emitted by
`restore_obb_files` is the single pre-copy "Restoring" info line - the body
contains no log call for the discarded `remove_file` result, so the deletion
failure appears nowhere in the log. -/
theorem restore_delete_failure_not_logged :
    restore_obb_files (fun _ => true) restoreFsW ["obb"] [["bk", "a.obb"]]
      = (.ok [(["bk", "a.obb"], [5]), (["obb", "a.obb"], [5])],
         [.restoring ["bk", "a.obb"]])
    ∧ fsRead [(["bk", "a.obb"], [5]), (["obb", "a.obb"], [5])] ["bk", "a.obb"]
        = some [5] :=
  ⟨rfl, rfl⟩

/-- C9 (amended): a failure to delete a backup copy after its successful
copy-back is non-fatal - for ANY deletion-fault oracle `rmFail`, a restore
whose copies all succeed returns success - and the deletion failure is
silently ignored: the emitted log is exactly one "Restoring" line per backup,
independent of `rmFail`, with no entry recording a deletion failure. -/
theorem restore_obb_files_ignores_delete_failures :
    ∀ (rmFail : FPath → Bool) (restore_dir : FPath) (bks : List FPath) (fs : FS),
      bks.Nodup →
      (∀ p, p ∈ bks → (fsRead fs p).isSome = true) →
      (∀ p, p ∈ bks → p.dropLast ≠ restore_dir) →
      ∃ fsOut, restore_obb_files rmFail fs restore_dir bks
        = (.ok fsOut, bks.map RestoreLog.restoring) := by
  intro rmFail restore_dir bks
  induction bks with
  | nil => exact fun fs _ _ _ => ⟨fs, rfl⟩
  | cons p rest ih =>
    intro fs hnd hread hdir
    obtain ⟨hp, hrest⟩ := List.nodup_cons.mp hnd
    have hps := hread p (List.mem_cons_self p rest)
    cases hfs : fsRead fs p with
    | none => rw [hfs] at hps; cases hps
    | some content =>
      have hfs2 : ∀ q, q ∈ rest →
          fsRead (if rmFail p then fsWrite fs (restore_dir ++ [pathFileName p]) content
                  else fsRemove (fsWrite fs (restore_dir ++ [pathFileName p]) content) p) q
            = fsRead fs q := by
        intro q hq
        have hqp : q ≠ p := fun hqp => hp (hqp ▸ hq)
        have hqt : q ≠ restore_dir ++ [pathFileName p] := by
          intro hqe
          apply hdir q (List.mem_cons_of_mem _ hq)
          rw [hqe]
          simp
        cases hrm : rmFail p
        · rw [if_neg Bool.false_ne_true, fsRemove,
              fsRead_erase_ne _ _ _ hqp, fsRead_write_ne _ _ _ _ hqt]
        · rw [if_pos rfl, fsRead_write_ne _ _ _ _ hqt]
      obtain ⟨fsOut, hout⟩ := ih
        (if rmFail p then fsWrite fs (restore_dir ++ [pathFileName p]) content
         else fsRemove (fsWrite fs (restore_dir ++ [pathFileName p]) content) p)
        hrest
        (fun q hq => by rw [hfs2 q hq]; exact hread q (List.mem_cons_of_mem _ hq))
        (fun q hq => hdir q (List.mem_cons_of_mem _ hq))
      refine ⟨fsOut, ?_⟩
      rw [restore_obb_files] at hout ⊢
      rw [restore_obb_files_go, hfs]
      simp only []
      rw [hout]
      rfl

/-- C9 witness for the amended claim: a concrete restore whose single backup
copy succeeds while its deletion always fails still returns success with only
the "Restoring" log line. -/
theorem restore_obb_files_ignores_delete_failures_witness :
    ∃ fsOut, restore_obb_files (fun _ => true) restoreFsW ["obb"] [["bk", "a.obb"]]
      = (.ok fsOut, [["bk", "a.obb"]].map RestoreLog.restoring) :=
  restore_obb_files_ignores_delete_failures (fun _ => true) ["obb"]
    [["bk", "a.obb"]] restoreFsW (by decide) (by decide) (by decide)

/-- C5: `download_diff_retry` makes at most `DIFF_DOWNLOAD_ATTEMPTS = 3`
attempts; a success on any attempt returns success immediately with no
further attempt (in particular success on attempt 3 makes no 4th attempt, the
trace ending at `attempt 3`); if all 3 attempts fail, the error of the last
attempt is returned unchanged while the two earlier failures are logged
(`logFailure` events) and swallowed. -/
theorem download_diff_retry_spec :
    ∀ (E : Type) (outcome : Nat → Except E Unit),
      ((download_diff_retry outcome).2.countP
          (fun ev => match ev with | .attempt _ => true | .logFailure _ => false)
        ≤ DIFF_DOWNLOAD_ATTEMPTS)
      ∧ (outcome 1 = .ok () →
          download_diff_retry outcome = (.ok (), [.attempt 1]))
      ∧ (∀ e1, outcome 1 = .error e1 → outcome 2 = .ok () →
          download_diff_retry outcome
            = (.ok (), [.attempt 1, .logFailure 1, .attempt 2]))
      ∧ (∀ e1 e2, outcome 1 = .error e1 → outcome 2 = .error e2 →
          outcome 3 = .ok () →
          download_diff_retry outcome
            = (.ok (), [.attempt 1, .logFailure 1, .attempt 2, .logFailure 2,
                        .attempt 3]))
      ∧ (∀ e1 e2 e3, outcome 1 = .error e1 → outcome 2 = .error e2 →
          outcome 3 = .error e3 →
          download_diff_retry outcome
            = (.error e3, [.attempt 1, .logFailure 1, .attempt 2, .logFailure 2,
                           .attempt 3])) := by
  intro E outcome
  refine ⟨?_, ?_, ?_, ?_, ?_⟩
  · rcases h1 : outcome 1 with u1 | e1 <;>
      rcases h2 : outcome 2 with u2 | e2 <;>
      rcases h3 : outcome 3 with u3 | e3 <;>
      simp [download_diff_retry, download_diff_retry_go, h1, h2, h3,
            DIFF_DOWNLOAD_ATTEMPTS, List.countP_cons]
  · intro h1
    simp [download_diff_retry, download_diff_retry_go, h1]
  · intro e1 h1 h2
    simp [download_diff_retry, download_diff_retry_go, h1, h2,
          DIFF_DOWNLOAD_ATTEMPTS]
  · intro e1 e2 h1 h2 h3
    simp [download_diff_retry, download_diff_retry_go, h1, h2, h3,
          DIFF_DOWNLOAD_ATTEMPTS]
  · intro e1 e2 e3 h1 h2 h3
    simp [download_diff_retry, download_diff_retry_go, h1, h2, h3,
          DIFF_DOWNLOAD_ATTEMPTS]

/-- C5 witness: with failures on attempts 1 and 2 and success on attempt 3,
the retry wrapper returns success, having made exactly attempts 1, 2 and 3
and logged the two swallowed failures. -/
theorem download_diff_retry_spec_witness :
    download_diff_retry retryOutcomeW
      = (.ok (), [.attempt 1, .logFailure 1, .attempt 2, .logFailure 2,
                  .attempt 3]) :=
  (download_diff_retry_spec String retryOutcomeW).2.2.2.1
    "connection reset" "connection reset" rfl rfl rfl

theorem download_diffs_go_ok {E : Type} (fetch : FS → Diff → Except E Unit × FS) :
    ∀ (ds : List Diff) (fs : FS),
      (∀ fs2 d, d ∈ ds → (fetch fs2 d).1 = .ok ()) →
      download_diffs_go fetch ds fs = (.ok (), foldFetch fetch fs ds, ds) := by
  intro ds
  induction ds with
  | nil => intro fs _; simp [download_diffs_go, foldFetch]
  | cons d rest ih =>
    intro fs h
    have hd := h fs d (List.mem_cons_self d rest)
    rw [download_diffs_go]
    simp only [hd]
    rw [ih (fetch fs d).2 (fun fs2 d2 hd2 => h fs2 d2 (List.mem_cons_of_mem _ hd2))]
    simp [foldFetch]

theorem download_diffs_go_err {E : Type} (fetch : FS → Diff → Except E Unit × FS)
    (d : Diff) (e : E) (hd : ∀ fs2, (fetch fs2 d).1 = .error e) :
    ∀ (pre : List Diff) (post : List Diff) (fs : FS),
      (∀ fs2 d2, d2 ∈ pre → (fetch fs2 d2).1 = .ok ()) →
      download_diffs_go fetch (pre ++ d :: post) fs
        = (.error e, foldFetch fetch fs (pre ++ [d]), pre ++ [d]) := by
  intro pre
  induction pre with
  | nil =>
    intro post fs _
    rw [List.nil_append, download_diffs_go]
    simp only [hd fs]
    simp [foldFetch]
  | cons p rest ih =>
    intro post fs h
    have hp := h fs p (List.mem_cons_self p rest)
    rw [List.cons_append, download_diffs_go]
    simp only [hp]
    rw [ih post (fetch fs p).2 (fun fs2 d2 hd2 => h fs2 d2 (List.mem_cons_of_mem _ hd2))]
    simp [foldFetch]

/-- C8: `download_diffs` fetches (via the retry wrapper, modelled as the
`fetch` oracle) every asset-bundle diff first, in the set's iteration order,
and only then the package diff; if every fetch succeeds the trace is exactly
`obb_diffs ++ [apk_diff]`; the first failing fetch aborts the whole downgrade
with that failure, the trace stopping at the failing diff (no later OBB diff
and no package diff is fetched), and the filesystem is exactly the fold of
the fetches attempted so far - whatever earlier fetches wrote is left on
disk, nothing is cleaned up. -/
theorem download_diffs_spec :
    ∀ (E : Type) (fetch : FS → Diff → Except E Unit × FS) (vd : VersionDiffs)
      (fs : FS),
      ((∀ fs2 d, (d ∈ vd.obb_diffs ∨ d = vd.apk_diff) → (fetch fs2 d).1 = .ok ()) →
        download_diffs fetch vd fs
          = (.ok (), foldFetch fetch fs (vd.obb_diffs ++ [vd.apk_diff]),
             vd.obb_diffs ++ [vd.apk_diff]))
      ∧ (∀ (pre : List Diff) (d : Diff) (post : List Diff) (e : E),
          vd.obb_diffs = pre ++ d :: post →
          (∀ fs2 d2, d2 ∈ pre → (fetch fs2 d2).1 = .ok ()) →
          (∀ fs2, (fetch fs2 d).1 = .error e) →
          download_diffs fetch vd fs
            = (.error e, foldFetch fetch fs (pre ++ [d]), pre ++ [d]))
      ∧ (∀ e : E,
          (∀ fs2 d, d ∈ vd.obb_diffs → (fetch fs2 d).1 = .ok ()) →
          (∀ fs2, (fetch fs2 vd.apk_diff).1 = .error e) →
          download_diffs fetch vd fs
            = (.error e, foldFetch fetch fs (vd.obb_diffs ++ [vd.apk_diff]),
               vd.obb_diffs ++ [vd.apk_diff])) := by
  intro E fetch vd fs
  refine ⟨?_, ?_, ?_⟩
  · intro h
    rw [download_diffs]
    rw [download_diffs_go_ok fetch vd.obb_diffs fs
        (fun fs2 d hd => h fs2 d (Or.inl hd))]
    simp only [h (foldFetch fetch fs vd.obb_diffs) vd.apk_diff (Or.inr rfl)]
    simp [foldFetch, List.foldl_append]
  · intro pre d post e hsplit hpre hd
    rw [download_diffs]
    rw [hsplit, download_diffs_go_err fetch d e hd pre post fs hpre]
  · intro e hobb hapk
    rw [download_diffs]
    rw [download_diffs_go_ok fetch vd.obb_diffs fs hobb]
    simp only [hapk (foldFetch fetch fs vd.obb_diffs)]
    simp [foldFetch, List.foldl_append]

/-- C8 witness: with an always-succeeding fetch oracle on a concrete
`VersionDiffs`, the downgrade succeeds, the trace is the two OBB diffs in
order followed by the APK diff, and the filesystem is the fold of the three
fetches. -/
theorem download_diffs_spec_witness :
    download_diffs fetchW vdW []
      = (.ok (), foldFetch fetchW [] (vdW.obb_diffs ++ [vdW.apk_diff]),
         vdW.obb_diffs ++ [vdW.apk_diff]) :=
  (download_diffs_spec String fetchW vdW []).1 (fun _ _ _ => rfl)

set_option maxRecDepth 8000 in
/-- C3: whenever the APK mutation pipeline succeeds on a container, the result
holds the injected native loader at the fixed path `lib/arm64-v8a/libmain.so`
(Deflate-compressed), holds at the well-known tag path a provenance entry
that decodes back into the `ModTag` whose `modloader_name` is `"Scotland2"`,
and carries a v2 signature made with the certificate loaded from the bundled
debug PEM whose snapshot is exactly the final entry list - i.e. signing was
the last operation on the container. -/
theorem patch_apk_in_place_spec :
    ∀ (env : ApkEnv) (zip : ZipFile) (libunity : Option Bytes) (out : ZipFile),
      patch_apk_in_place env zip libunity = .ok out →
        out.find LIB_MAIN_PATH = some ⟨LIB_MAIN_PATH, env.lib_main, .deflate⟩
        ∧ out.read_file MOD_TAG_PATH = some (modTagEncode mbfTag)
        ∧ modTagDecode (modTagEncode mbfTag) = some mbfTag
        ∧ mbfTag.modloader_name = "Scotland2"
        ∧ out.signature
            = some ⟨(env.load_cert_and_priv_key env.debug_cert_pem).2, out.entries⟩ := by
  intro env zip libunity out h
  rw [patch_apk_in_place] at h
  cases hm : patch_manifest env zip with
  | error e => rw [hm] at h; cases h
  | ok zip1 =>
    rw [hm] at h
    simp only [Except.ok.injEq] at h
    have hlm_tag : LIB_MAIN_PATH ≠ MOD_TAG_PATH := by decide
    have hlm_lu : LIB_MAIN_PATH ≠ LIB_UNITY_PATH := by decide
    have htag_lu : MOD_TAG_PATH ≠ LIB_UNITY_PATH := by decide
    have hround : modTagDecode (modTagEncode mbfTag) = some mbfTag := by decide
    cases libunity with
    | none =>
      subst h
      refine ⟨?_, ?_, hround, rfl, rfl⟩
      · rw [find_save_and_sign, add_modded_tag, find_write_file]
        rw [if_neg hlm_tag, find_write_file, if_pos rfl]
      · rw [ZipFile.read_file, find_save_and_sign, add_modded_tag,
            find_write_file, if_pos rfl]
        rfl
    | some unity =>
      subst h
      refine ⟨?_, ?_, hround, rfl, rfl⟩
      · rw [find_save_and_sign, find_write_file, if_neg hlm_lu,
            add_modded_tag, find_write_file, if_neg hlm_tag,
            find_write_file, if_pos rfl]
      · rw [ZipFile.read_file, find_save_and_sign, find_write_file,
            if_neg htag_lu, add_modded_tag, find_write_file, if_pos rfl]
        rfl

set_option maxRecDepth 8000 in
/-- C3 witness: running the pipeline on a concrete well-formed container (a
manifest entry, identity manifest transformation) yields a container with the
native loader in place, the decodable Scotland2 tag, and the v2 signature
over the final entries. -/
theorem patch_apk_in_place_spec_witness :
    apkOutW.find LIB_MAIN_PATH
        = some ⟨LIB_MAIN_PATH, apkEnvW.lib_main, .deflate⟩
    ∧ apkOutW.read_file MOD_TAG_PATH = some (modTagEncode mbfTag)
    ∧ modTagDecode (modTagEncode mbfTag) = some mbfTag
    ∧ mbfTag.modloader_name = "Scotland2"
    ∧ apkOutW.signature
        = some ⟨(apkEnvW.load_cert_and_priv_key apkEnvW.debug_cert_pem).2,
                apkOutW.entries⟩ :=
  patch_apk_in_place_spec apkEnvW zipW none apkOutW rfl

/-- C4: `get_modloader_installed` returns the QuestLoader variant when the
container holds a valid tag whose `modloader_name` equals "QuestLoader" up to
ASCII case (likewise Scotland2 for "Scotland2", and Unknown for any other
name); returns Unknown when there is no tag entry but some entry name
contains "modded"; and returns `none` ("not installed") when neither
condition holds. -/
theorem get_modloader_installed_spec :
    ∀ apk : ZipFile,
      (∀ (b : Bytes) (t : ModTag),
        apk.read_file MOD_TAG_PATH = some b → modTagDecode b = some t →
          ((eqIgnoreAsciiCase t.modloader_name "QuestLoader" = true →
              (get_modloader_installed apk).1 = .ok (some .QuestLoader))
           ∧ (eqIgnoreAsciiCase t.modloader_name "Scotland2" = true →
              (get_modloader_installed apk).1 = .ok (some .Scotland2))
           ∧ (eqIgnoreAsciiCase t.modloader_name "QuestLoader" = false →
              eqIgnoreAsciiCase t.modloader_name "Scotland2" = false →
              (get_modloader_installed apk).1 = .ok (some .Unknown))))
      ∧ (apk.read_file MOD_TAG_PATH = none →
          (apk.entries.any fun e => containsSubstr e.name "modded") = true →
          (get_modloader_installed apk).1 = .ok (some .Unknown))
      ∧ (apk.read_file MOD_TAG_PATH = none →
          (apk.entries.any fun e => containsSubstr e.name "modded") = false →
          (get_modloader_installed apk).1 = .ok none) := by
  intro apk
  refine ⟨?_, ?_, ?_⟩
  · intro b t hb ht
    have hc := read_file_some_contains apk MOD_TAG_PATH b hb
    refine ⟨?_, ?_, ?_⟩
    · intro hq
      simp [get_modloader_installed, hc, hb, ht, hq]
    · intro hs
      have hq : eqIgnoreAsciiCase t.modloader_name "QuestLoader" = false := by
        rw [eqIgnoreAsciiCase, decide_eq_true_eq] at hs
        rw [eqIgnoreAsciiCase, hs]
        decide
      simp [get_modloader_installed, hc, hb, ht, hq, hs]
    · intro hq hs
      simp [get_modloader_installed, hc, hb, ht, hq, hs]
  · intro hb hany
    have hc := read_file_none_contains apk MOD_TAG_PATH hb
    simp [get_modloader_installed, hc, hany]
  · intro hb hany
    have hc := read_file_none_contains apk MOD_TAG_PATH hb
    simp [get_modloader_installed, hc, hany]

set_option maxRecDepth 8000 in
/-- C4 witness: a container with a valid tag whose loader name is
"questLOADER" is detected as QuestLoader. -/
theorem get_modloader_installed_spec_witness :
    (get_modloader_installed apkQuestW).1 = .ok (some .QuestLoader) :=
  ((get_modloader_installed_spec apkQuestW).1 (modTagEncode tagQuestW) tagQuestW
    rfl (by decide)).1 (by decide)

/-- C10: when the container has an entry at the provenance-tag path whose
bytes do not deserialize into a `ModTag`, `get_modloader_installed` does not
return an error: for every such malformed content it returns the Unknown
variant, and it logs the invalid-tag warning. -/
theorem get_modloader_invalid_tag_unknown :
    ∀ (apk : ZipFile) (b : Bytes),
      apk.read_file MOD_TAG_PATH = some b → modTagDecode b = none →
      get_modloader_installed apk = (.ok (some .Unknown), [.warnInvalidTag]) := by
  intro apk b hb ht
  have hc := read_file_some_contains apk MOD_TAG_PATH b hb
  simp [get_modloader_installed, hc, hb, ht]

/-- C10 witness: a container whose tag entry holds the single byte 0 (not
valid JSON) is reported as Unknown with the warning logged. -/
theorem get_modloader_invalid_tag_unknown_witness :
    get_modloader_installed apkBadTagW = (.ok (some .Unknown), [.warnInvalidTag]) :=
  get_modloader_invalid_tag_unknown apkBadTagW [0] rfl rfl

end Patching
